import Mathlib

/-!
Verification of `bin/LiCSBAS_disp_img.py` (LiCSBAS image display utility).

The script is a linear pipeline: option parsing, width/length extraction from
a parameter file via `grep`, raster load, optional phase-wrap transform for
the `insar` colormap, color-range derivation via `np.nanpercentile`, and
rendering (interactive display or file export).

Embedding conventions:
* text lines are `String`s; token-level work is done on `List Char`;
* raster samples are modelled exactly as rationals, with `none` standing for
  a not-a-number sample (`np.nanpercentile` ignores those);
* color bounds live in `ℝ` because the `insar` branch forces them to `±π`;
* `Python int()` is modelled on ASCII decimal tokens with an optional sign
  (underscore grouping and non-ASCII digits are not exercised by the script's
  parameter files and are not modelled).
-/

namespace LiCSBAS

/-! ## Parameter-file extraction (script lines 129-140)

The script runs `grep <key> <parfile>`, decodes the whole output, applies
Python `str.split()` (split on whitespace runs, dropping empty tokens), takes
token `[1]` and parses it with `int`.  `subprocess.check_output` raises when
`grep` matches no line, `[1]` raises when fewer than two tokens result, and
`int` raises on a non-integer token; every one of these failures is caught by
the surrounding `try` and modelled as `none`. -/

def isWS (c : Char) : Bool :=
  c = ' ' || c = '\t' || c = '\n' || c = '\r'

/-- Python `str.split()` with no argument: split on whitespace runs and drop
empty tokens. -/
def splitWS (s : List Char) : List (List Char) :=
  (s.splitOnP isWS).filter (fun t => !t.isEmpty)

/-- `grep` line matching: the pattern occurs somewhere in the line as a
contiguous substring (the script's patterns contain no regex metacharacters). -/
def containsSeq (pat : List Char) : List Char → Bool
  | [] => pat.isEmpty
  | c :: rest => pat.isPrefixOf (c :: rest) || containsSeq pat rest

def parseDigitsAux : List Char → Nat → Option Nat
  | [], acc => some acc
  | c :: cs, acc =>
    if c.isDigit then parseDigitsAux cs (acc * 10 + (c.toNat - 48)) else none

/-- Python `int()` on a whitespace-free token: optional sign followed by at
least one decimal digit; anything else raises, modelled as `none`. -/
def parseInt : List Char → Option Int
  | [] => none
  | '-' :: cs =>
    match cs with
    | [] => none
    | _ => (parseDigitsAux cs 0).map (fun n => -(n : Int))
  | '+' :: cs =>
    match cs with
    | [] => none
    | _ => (parseDigitsAux cs 0).map (fun n => (n : Int))
  | cs => (parseDigitsAux cs 0).map (fun n => (n : Int))

/-- One `int(subp.check_output(['grep', pat, parfile]).decode().split()[1].strip())`
step: `none` when grep matches nothing, the split yields fewer than two
tokens, or the second token is not an integer.  `grep` emits every matching
line, newline-terminated; splitting the concatenation is what the script's
`.split()[1]` acts on. -/
def grepSecondInt (pat : String) (lines : List String) : Option Int :=
  let ms := lines.filter (fun l => containsSeq pat.toList l.toList)
  match ms with
  | [] => none
  | _ =>
    match (splitWS (List.intercalate [Char.ofNat 10] (ms.map String.toList)))[1]? with
    | none => none
    | some t => parseInt t

/-- The nested `try`/`except` of script lines 129-140: the EQA-style pair
(`width`, `nlines`) is attempted first; if either step raises, the SLC-style
pair (`range_samples`, `azimuth_lines`) is attempted; if that also fails the
script prints the error and exits with code 2 (`none` here). -/
def getWidthLength (lines : List String) : Option (Int × Int) :=
  match grepSecondInt "width" lines, grepSecondInt "nlines" lines with
  | some w, some l => some (w, l)
  | _, _ =>
    match grepSecondInt "range_samples" lines, grepSecondInt "azimuth_lines" lines with
    | some w, some l => some (w, l)
    | _, _ => none

/-- Spec-words model for comparison (claims C3/C4): search for a line whose
FIRST whitespace-separated token equals the key and parse that line's second
token as an integer. -/
def firstTokenInt (key : String) (lines : List String) : Option Int :=
  match lines.find? (fun l => (splitWS l.toList).head? == some key.toList) with
  | none => none
  | some l =>
    match (splitWS l.toList)[1]? with
    | none => none
    | some t => parseInt t

/-- Spec-words model of the whole extraction (claims C3/C4): the EQA-style
pair by first-token lookup, falling back to the SLC-style pair only when the
former is absent. -/
def widthLengthFirstTok (lines : List String) : Option (Int × Int) :=
  match firstTokenInt "width" lines, firstTokenInt "nlines" lines with
  | some w, some l => some (w, l)
  | _, _ =>
    match firstTokenInt "range_samples" lines, firstTokenInt "azimuth_lines" lines with
    | some w, some l => some (w, l)
    | _, _ => none

/-- A parameter file carrying both recognised key pairs (claim C4). -/
def bothPairsPar : List String :=
  ["width 4", "nlines 5", "range_samples 6", "azimuth_lines 7"]

/-! ## Run-outcome model (script lines 101-114 and 171-175)

The `Usage` checks run in order; each failure prints to stderr a message that
contains the quoted text below and exits with code 2.  The missing `-i`/`-p`
values are initialised to the empty Python list, which is falsy exactly like
the empty string used here.  After a successful run the script saves the
figure and prints a confirmation iff `pngname` is truthy, i.e. a non-empty
string was supplied to `--png`. -/

inductive RunOutcome
  | displayed
  | exported (path msg : String)
  | failed (code : Nat) (msg : String)
deriving DecidableEq

/-- The `getopt` long-option table of script line 75; a trailing `=` marks an
option that consumes a mandatory argument. -/
def longOpts : List String :=
  ["help", "cmin=", "cmax=", "auto_crange=", "cycle=", "bigendian", "png="]

def runScript (fileExists : String → Bool) (infile parfile : String)
    (parLines : List String) (pngname : String) : RunOutcome :=
  if infile = "" then .failed 2 "No image file given, -i is not optional!"
  else if fileExists infile = false then .failed 2 ("No " ++ infile ++ " exists!")
  else if parfile = "" then .failed 2 "No par file given, -p is not optional!"
  else if fileExists parfile = false then .failed 2 ("No " ++ parfile ++ " exists!")
  else
    match getWidthLength parLines with
    | none => .failed 2 ("No fields about width/length found in " ++ parfile ++ "!")
    | some _ =>
      if pngname = "" then .displayed
      else .exported pngname ("\nOutput: " ++ pngname ++ "\n")

/-! ## Percentile-based color range (script lines 152-160)

`np.nanpercentile(data, q)` with the default linear interpolation: sort the
non-NaN samples ascending into `x_0 … x_{n-1}`, put `h = (n-1)·q/100`, return
`x_⌊h⌋ + fract(h)·(x_⌈h⌉ - x_⌊h⌋)`.  numpy validates `0 ≤ q ≤ 100` and the
script only ever calls it with `auto_crange` and `100 - auto_crange`; with no
non-NaN sample numpy yields NaN, modelled by the junk value `0` (every claim
about the percentile assumes at least one non-NaN sample). -/

/-- The interpolation position used by numpy for a sorted list `xs`. -/
def ipos (xs : List ℚ) (q : ℚ) : ℚ := ((xs.length : ℚ) - 1) * q / 100

/-- Linear interpolation into a (sorted) sample list at position `h`. -/
def interpRaw (xs : List ℚ) (h : ℚ) : ℚ :=
  xs.getD (⌊h⌋).toNat 0 +
    Int.fract h * (xs.getD (⌈h⌉).toNat 0 - xs.getD (⌊h⌋).toNat 0)

def interpAt (xs : List ℚ) (q : ℚ) : ℚ := interpRaw xs (ipos xs q)

/-- The non-NaN samples, sorted ascending (what numpy sorts internally). -/
def sortVals (data : List (Option ℚ)) : List ℚ :=
  List.insertionSort (· ≤ ·) (data.filterMap id)

def nanpercentile (data : List (Option ℚ)) (q : ℚ) : ℚ :=
  if (sortVals data).isEmpty then 0 else interpAt (sortVals data) q

/-- Least non-NaN sample (head of the ascending sort). -/
def nanminQ (data : List (Option ℚ)) : ℚ :=
  (sortVals data).getD 0 0

/-- Greatest non-NaN sample (last entry of the ascending sort). -/
def nanmaxQ (data : List (Option ℚ)) : ℚ :=
  (sortVals data).getD ((sortVals data).length - 1) 0

/-- Script lines 152-160: when both bounds are unset both are derived by
percentile; when exactly one is unset only that one is derived; when both are
set nothing is computed. -/
noncomputable def resolveRange (cmin cmax : Option ℝ) (data : List (Option ℚ))
    (p : ℚ) : ℝ × ℝ :=
  match cmin, cmax with
  | none, none => (((nanpercentile data (100 - p) : ℚ) : ℝ), ((nanpercentile data p : ℚ) : ℝ))
  | some a, none => (a, ((nanpercentile data p : ℚ) : ℝ))
  | none, some b => (((nanpercentile data (100 - p) : ℚ) : ℝ), b)
  | some a, some b => (a, b)

/-- Bounds as resolved by the whole script: the `insar` branch (lines
146-149) overwrites both bounds with `-π`/`π` before the shared color-range
block runs, so that block keeps them unchanged; otherwise the user-supplied
options flow into the block unchanged.  (In the `insar` branch the data have
also been phase-wrapped, but the block reads the data only on the percentile
paths, which that branch never takes.) -/
noncomputable def displayBounds (cmap : String) (cmin cmax : Option ℝ)
    (data : List (Option ℚ)) (p : ℚ) : ℝ × ℝ :=
  if cmap = "insar" then resolveRange (some (-Real.pi)) (some Real.pi) data p
  else resolveRange cmin cmax data p

/-! ## Phase-wrap transform (script line 147)

`data = np.angle(np.exp(1j*(data/cycle))*cycle)`: note that the `*cycle`
multiplies the complex number inside `np.angle`, not the resulting angle. -/

noncomputable def wrapDatum (v c : ℝ) : ℝ :=
  Complex.arg (Complex.exp (Complex.I * ((v : ℂ) / (c : ℂ))) * (c : ℂ))

/-- Spec-words model for comparison (claim C2): wrap `v/c` into `(-π, π]` via
`angle(exp(i·θ))`, then rescale the angle back by `c`. -/
noncomputable def wrapSpec (v c : ℝ) : ℝ :=
  Complex.arg (Complex.exp (Complex.I * ((v : ℂ) / (c : ℂ)))) * c

/-! ## Supporting lemmas: concrete percentile evaluation -/

/-- Evaluation helper: `interpAt` with the floor and ceiling of the
interpolation position supplied as facts. -/
theorem interpAt_eq_of_floor_ceil {xs : List ℚ} {q : ℚ} {i j : ℤ}
    (hi : ⌊ipos xs q⌋ = i) (hj : ⌈ipos xs q⌉ = j) :
    interpAt xs q =
      xs.getD i.toNat 0 + (ipos xs q - i) * (xs.getD j.toNat 0 - xs.getD i.toNat 0) := by
  unfold interpAt interpRaw Int.fract
  rw [hi, hj]

/-- Evaluation helper: `nanpercentile` through a precomputed sort. -/
theorem nanpercentile_eq (data : List (Option ℚ)) (q : ℚ) (xs : List ℚ)
    (hxs : sortVals data = xs) (hne : xs.isEmpty = false) :
    nanpercentile data q = interpAt xs q := by
  unfold nanpercentile
  rw [hxs]
  simp [hne]

/-! ## Supporting lemmas: the interpolated percentile of a sorted list -/

theorem sorted_getD_le {xs : List ℚ} (hs : List.Sorted (· ≤ ·) xs) {i j : ℕ}
    (hij : i ≤ j) (hj : j < xs.length) : xs.getD i 0 ≤ xs.getD j 0 := by
  have hi : i < xs.length := lt_of_le_of_lt hij hj
  rw [List.getD_eq_getElem _ _ hi, List.getD_eq_getElem _ _ hj]
  exact hs.rel_get_of_le (a := ⟨i, hi⟩) (b := ⟨j, hj⟩) hij

theorem length_pos_of_ne_nil {xs : List ℚ} (hne : xs ≠ []) : 1 ≤ (xs.length : ℚ) := by
  have := List.length_pos.mpr hne
  exact_mod_cast this

theorem ipos_nonneg {xs : List ℚ} (hne : xs ≠ []) {q : ℚ} (h0 : 0 ≤ q) :
    0 ≤ ipos xs q := by
  have h1 := length_pos_of_ne_nil hne
  unfold ipos
  have h2 : (0 : ℚ) ≤ (xs.length : ℚ) - 1 := by linarith
  exact div_nonneg (mul_nonneg h2 h0) (by norm_num)

theorem ipos_le {xs : List ℚ} (hne : xs ≠ []) {q : ℚ} (h0 : 0 ≤ q) (h1 : q ≤ 100) :
    ipos xs q ≤ (xs.length : ℚ) - 1 := by
  have hl := length_pos_of_ne_nil hne
  have h2 : (0 : ℚ) ≤ (xs.length : ℚ) - 1 := by linarith
  have := mul_le_mul_of_nonneg_left h1 h2
  unfold ipos
  linarith

theorem ipos_mono {xs : List ℚ} (hne : xs ≠ []) {q1 q2 : ℚ} (h : q1 ≤ q2) :
    ipos xs q1 ≤ ipos xs q2 := by
  have hl := length_pos_of_ne_nil hne
  have h2 : (0 : ℚ) ≤ (xs.length : ℚ) - 1 := by linarith
  have := mul_le_mul_of_nonneg_left h h2
  unfold ipos
  linarith

theorem ceil_toNat_lt_length {xs : List ℚ} (hne : xs ≠ []) {h : ℚ}
    (hub : h ≤ (xs.length : ℚ) - 1) : (⌈h⌉).toNat < xs.length := by
  have h1 : 1 ≤ xs.length := List.length_pos.mpr hne
  have h2 : ⌈h⌉ ≤ (xs.length : ℤ) - 1 := by
    refine Int.ceil_le.mpr ?_
    push_cast
    linarith
  omega

theorem floor_toNat_le_ceil_toNat (h : ℚ) : (⌊h⌋).toNat ≤ (⌈h⌉).toNat := by
  have := Int.floor_le_ceil h
  omega

theorem floor_toNat_lt_length {xs : List ℚ} (hne : xs ≠ []) {h : ℚ}
    (hub : h ≤ (xs.length : ℚ) - 1) : (⌊h⌋).toNat < xs.length :=
  lt_of_le_of_lt (floor_toNat_le_ceil_toNat h) (ceil_toNat_lt_length hne hub)

theorem interpRaw_lb {xs : List ℚ} (hs : List.Sorted (· ≤ ·) xs) (hne : xs ≠ [])
    {h : ℚ} (hub : h ≤ (xs.length : ℚ) - 1) :
    xs.getD (⌊h⌋).toNat 0 ≤ interpRaw xs h := by
  have hj := ceil_toNat_lt_length hne hub
  have hab := sorted_getD_le hs (floor_toNat_le_ceil_toNat h) hj
  have hf0 := Int.fract_nonneg h
  unfold interpRaw
  nlinarith [mul_nonneg hf0 (sub_nonneg.mpr hab)]

theorem interpRaw_ub {xs : List ℚ} (hs : List.Sorted (· ≤ ·) xs) (hne : xs ≠ [])
    {h : ℚ} (hub : h ≤ (xs.length : ℚ) - 1) :
    interpRaw xs h ≤ xs.getD (⌈h⌉).toNat 0 := by
  have hj := ceil_toNat_lt_length hne hub
  have hab := sorted_getD_le hs (floor_toNat_le_ceil_toNat h) hj
  have hf1 := le_of_lt (Int.fract_lt_one h)
  unfold interpRaw
  nlinarith [mul_nonneg (by linarith : (0 : ℚ) ≤ 1 - Int.fract h) (sub_nonneg.mpr hab)]

theorem interpRaw_mono {xs : List ℚ} (hs : List.Sorted (· ≤ ·) xs) (hne : xs ≠ [])
    {h1 h2 : ℚ} (h0 : 0 ≤ h1) (h12 : h1 ≤ h2) (hub : h2 ≤ (xs.length : ℚ) - 1) :
    interpRaw xs h1 ≤ interpRaw xs h2 := by
  have hub1 : h1 ≤ (xs.length : ℚ) - 1 := le_trans h12 hub
  rcases eq_or_lt_of_le (Int.floor_le_floor h12) with hf | hf
  · -- same floor
    by_cases hint : h1 = ((⌊h1⌋ : ℤ) : ℚ)
    · have hz : Int.fract h1 = 0 := by
        rw [hint]
        exact Int.fract_intCast _
      have e1 : interpRaw xs h1 = xs.getD (⌊h1⌋).toNat 0 := by
        unfold interpRaw
        rw [hz]
        ring
      rw [e1, hf]
      exact interpRaw_lb hs hne hub
    · -- both positions lie strictly between the common floor and its successor
      have hk1 : ((⌊h1⌋ : ℤ) : ℚ) < h1 := lt_of_le_of_ne (Int.floor_le h1) (Ne.symm hint)
      have hk2 : h2 < ((⌊h1⌋ : ℤ) : ℚ) + 1 := by
        have := Int.lt_floor_add_one h2
        rw [← hf] at this
        exact_mod_cast this
      have hc1 : ⌈h1⌉ = ⌊h1⌋ + 1 := by
        rw [Int.ceil_eq_iff]
        constructor
        · push_cast
          linarith
        · push_cast
          linarith
      have hc2 : ⌈h2⌉ = ⌊h1⌋ + 1 := by
        rw [Int.ceil_eq_iff]
        constructor
        · push_cast
          linarith
        · push_cast
          linarith
      have hfr1 : Int.fract h1 = h1 - ((⌊h1⌋ : ℤ) : ℚ) := rfl
      have hfr2 : Int.fract h2 = h2 - ((⌊h1⌋ : ℤ) : ℚ) := by
        unfold Int.fract
        rw [← hf]
      have hj : (⌈h2⌉).toNat < xs.length := ceil_toNat_lt_length hne hub
      have hab : xs.getD (⌊h1⌋).toNat 0 ≤ xs.getD (⌊h1⌋ + 1).toNat 0 := by
        have := sorted_getD_le hs (floor_toNat_le_ceil_toNat h2) hj
        rw [hc2, ← hf] at this
        exact this
      unfold interpRaw
      rw [hfr1, hfr2, hc1, hc2, ← hf]
      nlinarith [mul_nonneg (by linarith : (0 : ℚ) ≤ h2 - h1)
        (sub_nonneg.mpr hab)]
  · -- the floor strictly increases
    have hcf : (⌈h1⌉).toNat ≤ (⌊h2⌋).toNat := by
      have := Int.ceil_le_floor_add_one h1
      omega
    have hfl : (⌊h2⌋).toNat < xs.length := floor_toNat_lt_length hne hub
    calc interpRaw xs h1 ≤ xs.getD (⌈h1⌉).toNat 0 := interpRaw_ub hs hne hub1
      _ ≤ xs.getD (⌊h2⌋).toNat 0 := sorted_getD_le hs hcf hfl
      _ ≤ interpRaw xs h2 := interpRaw_lb hs hne hub

theorem interpAt_mono {xs : List ℚ} (hs : List.Sorted (· ≤ ·) xs) (hne : xs ≠ [])
    {q1 q2 : ℚ} (h0 : 0 ≤ q1) (h12 : q1 ≤ q2) (h100 : q2 ≤ 100) :
    interpAt xs q1 ≤ interpAt xs q2 :=
  interpRaw_mono hs hne (ipos_nonneg hne h0) (ipos_mono hne h12)
    (ipos_le hne (le_trans h0 h12) h100)

theorem interpAt_lb {xs : List ℚ} (hs : List.Sorted (· ≤ ·) xs) (hne : xs ≠ [])
    {q : ℚ} (h0 : 0 ≤ q) (h100 : q ≤ 100) :
    xs.getD 0 0 ≤ interpAt xs q := by
  have hub := ipos_le hne h0 h100
  refine le_trans ?_ (interpRaw_lb hs hne hub)
  exact sorted_getD_le hs (Nat.zero_le _) (floor_toNat_lt_length hne hub)

theorem interpAt_ub {xs : List ℚ} (hs : List.Sorted (· ≤ ·) xs) (hne : xs ≠ [])
    {q : ℚ} (h0 : 0 ≤ q) (h100 : q ≤ 100) :
    interpAt xs q ≤ xs.getD (xs.length - 1) 0 := by
  have hub := ipos_le hne h0 h100
  refine le_trans (interpRaw_ub hs hne hub) ?_
  have hj := ceil_toNat_lt_length hne hub
  have hn : 1 ≤ xs.length := List.length_pos.mpr hne
  exact sorted_getD_le hs (by omega) (by omega)

/-! ## Supporting lemmas: `nanpercentile` on data with a non-NaN sample -/

theorem sortVals_sorted (data : List (Option ℚ)) :
    List.Sorted (· ≤ ·) (sortVals data) :=
  List.sorted_insertionSort _ _

theorem sortVals_perm (data : List (Option ℚ)) :
    List.Perm (sortVals data) (data.filterMap id) :=
  List.perm_insertionSort _ _

theorem sortVals_ne_nil {data : List (Option ℚ)} (hne : data.filterMap id ≠ []) :
    sortVals data ≠ [] := by
  intro h
  apply hne
  have hlen := (sortVals_perm data).length_eq
  rw [h] at hlen
  exact List.length_eq_zero.mp hlen.symm

theorem nanpercentile_eq_interpAt {data : List (Option ℚ)} (q : ℚ)
    (hne : data.filterMap id ≠ []) :
    nanpercentile data q = interpAt (sortVals data) q := by
  unfold nanpercentile
  simp [sortVals_ne_nil hne]

theorem nanpercentile_mono {data : List (Option ℚ)} {q1 q2 : ℚ}
    (hne : data.filterMap id ≠ []) (h0 : 0 ≤ q1) (h12 : q1 ≤ q2) (h100 : q2 ≤ 100) :
    nanpercentile data q1 ≤ nanpercentile data q2 := by
  rw [nanpercentile_eq_interpAt q1 hne, nanpercentile_eq_interpAt q2 hne]
  exact interpAt_mono (sortVals_sorted data) (sortVals_ne_nil hne) h0 h12 h100

theorem nanminQ_le_nanpercentile {data : List (Option ℚ)} {q : ℚ}
    (hne : data.filterMap id ≠ []) (h0 : 0 ≤ q) (h100 : q ≤ 100) :
    nanminQ data ≤ nanpercentile data q := by
  rw [nanpercentile_eq_interpAt q hne]
  exact interpAt_lb (sortVals_sorted data) (sortVals_ne_nil hne) h0 h100

theorem nanpercentile_le_nanmaxQ {data : List (Option ℚ)} {q : ℚ}
    (hne : data.filterMap id ≠ []) (h0 : 0 ≤ q) (h100 : q ≤ 100) :
    nanpercentile data q ≤ nanmaxQ data := by
  rw [nanpercentile_eq_interpAt q hne]
  exact interpAt_ub (sortVals_sorted data) (sortVals_ne_nil hne) h0 h100

/-- `nanminQ` and `nanmaxQ` really are the extremes of the non-NaN samples. -/
theorem nanminQ_le_le_nanmaxQ {data : List (Option ℚ)} {x : ℚ}
    (hx : x ∈ data.filterMap id) : nanminQ data ≤ x ∧ x ≤ nanmaxQ data := by
  have hmem : x ∈ sortVals data := (sortVals_perm data).mem_iff.mpr hx
  obtain ⟨i, hi, rfl⟩ := List.getElem_of_mem hmem
  constructor
  · have h := sorted_getD_le (sortVals_sorted data) (Nat.zero_le i) hi
    rwa [List.getD_eq_getElem _ _ hi] at h
  · have h := sorted_getD_le (sortVals_sorted data)
      (show i ≤ (sortVals data).length - 1 by omega) (by omega)
    rwa [List.getD_eq_getElem _ _ hi] at h

/-! ## Supporting lemmas: the phase-wrap transform -/

theorem wrapDatum_eq_arg (v : ℝ) {c : ℝ} (hc : 0 < c) :
    wrapDatum v c = Complex.arg (Complex.exp (Complex.I * ((v : ℂ) / (c : ℂ)))) := by
  unfold wrapDatum
  rw [mul_comm]
  exact Complex.arg_real_mul _ hc

theorem arg_exp_I_mul_of_Ioc {θ : ℝ} (hθ : θ ∈ Set.Ioc (-Real.pi) Real.pi) :
    Complex.arg (Complex.exp (Complex.I * (θ : ℂ))) = θ := by
  rw [mul_comm, Complex.exp_mul_I]
  exact Complex.arg_cos_add_sin_mul_I hθ

theorem arg_exp_I_mul_add_int (θ : ℝ) :
    ∃ k : ℤ, Complex.arg (Complex.exp (Complex.I * (θ : ℂ))) = θ + 2 * Real.pi * k := by
  have habs : Complex.abs (Complex.exp (Complex.I * (θ : ℂ))) = 1 := by
    rw [mul_comm]
    exact Complex.abs_exp_ofReal_mul_I θ
  have hz : Complex.exp ((Complex.arg (Complex.exp (Complex.I * (θ : ℂ))) : ℂ) * Complex.I)
      = Complex.exp (Complex.I * (θ : ℂ)) := by
    have h1 := Complex.abs_mul_exp_arg_mul_I (Complex.exp (Complex.I * (θ : ℂ)))
    rw [habs] at h1
    simpa using h1
  obtain ⟨n, hn⟩ := Complex.exp_eq_exp_iff_exists_int.mp hz
  refine ⟨n, ?_⟩
  have h3 : ((Complex.arg (Complex.exp (Complex.I * (θ : ℂ))) : ℝ) : ℂ) * Complex.I
      = ((θ + 2 * Real.pi * n : ℝ) : ℂ) * Complex.I := by
    rw [hn]
    push_cast
    ring
  have h4 := mul_right_cancel₀ Complex.I_ne_zero h3
  exact_mod_cast h4

/-! ## Supporting lemmas: single-match grep extraction -/

theorem intercalate_singleton (l : List Char) :
    List.intercalate [Char.ofNat 10] [l] = l := by
  simp [List.intercalate]

theorem grepSecondInt_single {pat : String} {lines : List String} {m : String}
    {t0 tok : List Char} {rest : List (List Char)} {v : Int}
    (hf : lines.filter (fun s => containsSeq pat.toList s.toList) = [m])
    (hs : splitWS m.toList = t0 :: tok :: rest)
    (hp : parseInt tok = some v) :
    grepSecondInt pat lines = some v := by
  have hs2 : splitWS m.data = t0 :: tok :: rest := hs
  simp only [grepSecondInt]
  rw [hf]
  simp [intercalate_singleton, hs2, hp]

/-- Any percentile of an all-zero raster is `0`. -/
theorem nanpercentile_replicate_zero (n : ℕ) (hn : 0 < n) (q : ℚ) :
    nanpercentile (List.replicate n (some (0 : ℚ))) q = 0 := by
  have hvals : (List.replicate n (some (0 : ℚ))).filterMap id = List.replicate n 0 := by
    induction n with
    | zero => rfl
    | succ k ih => simp [List.replicate_succ, ih]
  have hne : (List.replicate n (some (0 : ℚ))).filterMap id ≠ [] := by
    rw [hvals]
    intro h
    have := congrArg List.length h
    simp at this
    omega
  rw [nanpercentile_eq_interpAt q hne]
  have hall : ∀ x ∈ sortVals (List.replicate n (some (0 : ℚ))), x = 0 := by
    intro x hx
    have hm := (sortVals_perm _).mem_iff.mp hx
    rw [hvals] at hm
    exact List.eq_of_mem_replicate hm
  have g : ∀ i : ℕ, (sortVals (List.replicate n (some (0 : ℚ)))).getD i 0 = 0 := by
    intro i
    rcases lt_or_le i (sortVals (List.replicate n (some (0 : ℚ)))).length with hi | hi
    · rw [List.getD_eq_getElem _ _ hi]
      exact hall _ (List.getElem_mem _)
    · exact List.getD_eq_default _ _ hi
  unfold interpAt interpRaw
  simp only [g]
  ring

/-! ## Claims -/

/-- C1: when the colormap is `insar` the resolved color bounds are exactly
`(-π, π)`, for every user-supplied `--cmin`/`--cmax` pair, every data set and
every auto-range percentage; no percentile computation affects them. -/
theorem insar_forces_pi_bounds (cmin cmax : Option ℝ) (data : List (Option ℚ)) (p : ℚ) :
    displayBounds "insar" cmin cmax data p = (-Real.pi, Real.pi) := rfl

/-- C2 counterexample: at `v = 2`, `c = 2` the script's transform
(`np.angle(np.exp(1j*(v/c))*c)`) yields `1`, while the spec's formula
`atan2(sin(v/c), cos(v/c)) * c` yields `2`. -/
theorem wrap_rescale_counterexample : wrapDatum 2 2 ≠ wrapSpec 2 2 := by
  have hdiv : (((2 : ℝ)) : ℂ) / (((2 : ℝ)) : ℂ) = (((1 : ℝ)) : ℂ) := by norm_num
  have hIoc : (1 : ℝ) ∈ Set.Ioc (-Real.pi) Real.pi := by
    constructor
    · have := Real.pi_pos
      linarith
    · have := Real.pi_gt_three
      linarith
  have h1 : wrapDatum 2 2 = 1 := by
    rw [wrapDatum_eq_arg 2 (by norm_num : (0 : ℝ) < 2), hdiv]
    exact arg_exp_I_mul_of_Ioc hIoc
  have h2 : wrapSpec 2 2 = 2 := by
    unfold wrapSpec
    rw [hdiv, arg_exp_I_mul_of_Ioc hIoc]
    norm_num
  rw [h1, h2]
  norm_num

/-- C2 (amended): for every sample `v` and positive cycle `c` the transform
wraps `v/c` into `(-π, π]` — it differs from `v/c` by an integer multiple of
`2π` — and performs no rescaling by `c`. -/
theorem wrap_no_rescale (v : ℝ) {c : ℝ} (hc : 0 < c) :
    ∃ k : ℤ, wrapDatum v c = v / c + 2 * Real.pi * k ∧
      wrapDatum v c ∈ Set.Ioc (-Real.pi) Real.pi := by
  obtain ⟨k, hk⟩ := arg_exp_I_mul_add_int (v / c)
  refine ⟨k, ?_, ?_⟩
  · rw [wrapDatum_eq_arg v hc,
      show ((v : ℂ)) / ((c : ℂ)) = ((v / c : ℝ) : ℂ) by push_cast; ring]
    exact hk
  · unfold wrapDatum
    exact Complex.arg_mem_Ioc _

theorem wrap_no_rescale_witness :
    (0 : ℝ) < 2 ∧
    ∃ k : ℤ, wrapDatum (-1) 2 = (-1) / 2 + 2 * Real.pi * k ∧
      wrapDatum (-1) 2 ∈ Set.Ioc (-Real.pi) Real.pi :=
  ⟨by norm_num, wrap_no_rescale (-1) (by norm_num)⟩

/-- C3 counterexample: on the parameter file `["xwidth 7", "nlines 3"]` the
script's grep-substring extraction returns `(7, 3)` (the pattern `width`
matches inside `xwidth`), while the claimed first-token search finds no
`width` line and fails. -/
theorem extraction_substring_counterexample :
    getWidthLength ["xwidth 7", "nlines 3"] = some (7, 3) ∧
    widthLengthFirstTok ["xwidth 7", "nlines 3"] = none := by
  constructor
  · decide
  · decide

/-- C3 (amended): extraction greps for lines CONTAINING the key as a
substring and parses the second whitespace token of the concatenated grep
output; in particular, when exactly one line contains `width` (resp.
`nlines`) and that line's second token is an integer, those integers are the
extracted width and length, whatever the lines' first tokens are. -/
theorem grep_extraction_wellformed {lines : List String} {lw ln : String}
    {w0 wtok l0 ltok : List Char} {wrest lrest : List (List Char)} {w l : Int}
    (hwf : lines.filter (fun s => containsSeq "width".toList s.toList) = [lw])
    (hws : splitWS lw.toList = w0 :: wtok :: wrest)
    (hwp : parseInt wtok = some w)
    (hlf : lines.filter (fun s => containsSeq "nlines".toList s.toList) = [ln])
    (hls : splitWS ln.toList = l0 :: ltok :: lrest)
    (hlp : parseInt ltok = some l) :
    getWidthLength lines = some (w, l) := by
  unfold getWidthLength
  rw [grepSecondInt_single hwf hws hwp, grepSecondInt_single hlf hls hlp]

theorem grep_extraction_wellformed_witness :
    (["width: 104", "nlines: 80"].filter
        (fun s => containsSeq "width".toList s.toList) = ["width: 104"]) ∧
    splitWS "width: 104".toList = ["width:".toList, "104".toList] ∧
    parseInt "104".toList = some 104 ∧
    (["width: 104", "nlines: 80"].filter
        (fun s => containsSeq "nlines".toList s.toList) = ["nlines: 80"]) ∧
    splitWS "nlines: 80".toList = ["nlines:".toList, "80".toList] ∧
    parseInt "80".toList = some 80 ∧
    getWidthLength ["width: 104", "nlines: 80"] = some (104, 80) :=
  ⟨by decide, by decide, by decide, by decide, by decide, by decide,
    @grep_extraction_wellformed ["width: 104", "nlines: 80"] "width: 104" "nlines: 80"
      "width:".toList "104".toList "nlines:".toList "80".toList [] [] 104 80
      (by decide) (by decide) (by decide) (by decide) (by decide) (by decide)⟩

/-- C4 counterexample: a parameter file carrying BOTH recognised key pairs —
each present even in the claim's first-token sense — does not make the run
fail: extraction succeeds with the EQA-style pair and the run proceeds to
display. -/
theorem both_pairs_counterexample :
    (firstTokenInt "width" bothPairsPar).isSome = true ∧
    (firstTokenInt "nlines" bothPairsPar).isSome = true ∧
    (firstTokenInt "range_samples" bothPairsPar).isSome = true ∧
    (firstTokenInt "azimuth_lines" bothPairsPar).isSome = true ∧
    getWidthLength bothPairsPar = some (4, 5) ∧
    runScript (fun _ => true) "a.bin" "b.par" bothPairsPar "" = RunOutcome.displayed := by
  refine ⟨?_, ?_, ?_, ?_, ?_, ?_⟩ <;> decide

/-- C4 (amended): extraction fails — and only then does the script exit with
code 2 — exactly when neither the (`width`, `nlines`) pair nor the
(`range_samples`, `azimuth_lines`) pair yields two parseable integers under
grep-substring extraction; at least one usable pair suffices, not exactly
one. -/
theorem extraction_failure_iff (lines : List String) :
    getWidthLength lines = none ↔
      ¬ (((grepSecondInt "width" lines).isSome ∧
            (grepSecondInt "nlines" lines).isSome) ∨
        ((grepSecondInt "range_samples" lines).isSome ∧
          (grepSecondInt "azimuth_lines" lines).isSome)) := by
  unfold getWidthLength
  rcases h1 : grepSecondInt "width" lines with _ | w <;>
    rcases h2 : grepSecondInt "nlines" lines with _ | l <;>
      rcases h3 : grepSecondInt "range_samples" lines with _ | w2 <;>
        rcases h4 : grepSecondInt "azimuth_lines" lines with _ | l2 <;>
          simp

/-- C5: with the phase-wrap transform inactive, unset bounds are derived by
nan-ignoring percentiles at `100 - p` (lower) and `p` (upper), an explicitly
set bound is kept, and when both are set nothing is computed. -/
theorem range_derivation_cases (cmap : String) (hc : cmap ≠ "insar")
    (data : List (Option ℚ)) (p : ℚ) (a b : ℝ) :
    displayBounds cmap none none data p
        = (((nanpercentile data (100 - p) : ℚ) : ℝ),
            ((nanpercentile data p : ℚ) : ℝ)) ∧
    displayBounds cmap (some a) none data p
        = (a, ((nanpercentile data p : ℚ) : ℝ)) ∧
    displayBounds cmap none (some b) data p
        = (((nanpercentile data (100 - p) : ℚ) : ℝ), b) ∧
    displayBounds cmap (some a) (some b) data p = (a, b) := by
  unfold displayBounds
  simp only [if_neg hc]
  exact ⟨rfl, rfl, rfl, rfl⟩

theorem range_derivation_cases_witness :
    ("SCM5.roma_r" : String) ≠ "insar" ∧
    (displayBounds "SCM5.roma_r" none none [some 0] 99
        = (((nanpercentile [some 0] (100 - 99) : ℚ) : ℝ),
            ((nanpercentile [some 0] 99 : ℚ) : ℝ)) ∧
      displayBounds "SCM5.roma_r" (some 1) none [some 0] 99
        = (1, ((nanpercentile [some 0] 99 : ℚ) : ℝ)) ∧
      displayBounds "SCM5.roma_r" none (some 2) [some 0] 99
        = (((nanpercentile [some 0] (100 - 99) : ℚ) : ℝ), 2) ∧
      displayBounds "SCM5.roma_r" (some 1) (some 2) [some 0] 99 = (1, 2)) :=
  ⟨by decide, range_derivation_cases "SCM5.roma_r" (by decide) [some 0] 99 1 2⟩

/-- C6 counterexample: with auto-range percentage `p = 10` (which the script
accepts) on the data `[0, 1]`, the derived bounds are `cmin = 0.9 > cmax =
0.1`, refuting `cmin ≤ cmax` for arbitrary configured percentiles. -/
theorem auto_bounds_counterexample :
    ¬ ((resolveRange none none [some 0, some 1] 10).1
        ≤ (resolveRange none none [some 0, some 1] 10).2) := by
  have e1 : nanpercentile [some (0 : ℚ), some 1] (100 - 10) = 9 / 10 := by
    rw [nanpercentile_eq _ _ [0, 1] (by decide) (by decide),
      interpAt_eq_of_floor_ceil (i := 0) (j := 1)
        (Int.floor_eq_iff.mpr (by norm_num [ipos]))
        (Int.ceil_eq_iff.mpr (by norm_num [ipos]))]
    norm_num [ipos]
  have e2 : nanpercentile [some (0 : ℚ), some 1] 10 = 1 / 10 := by
    rw [nanpercentile_eq _ _ [0, 1] (by decide) (by decide),
      interpAt_eq_of_floor_ceil (i := 0) (j := 1)
        (Int.floor_eq_iff.mpr (by norm_num [ipos]))
        (Int.ceil_eq_iff.mpr (by norm_num [ipos]))]
    norm_num [ipos]
  have e : resolveRange none none [some (0 : ℚ), some 1] 10
      = ((((9 : ℚ) / 10 : ℚ) : ℝ), (((1 : ℚ) / 10 : ℚ) : ℝ)) := by
    unfold resolveRange
    rw [e1, e2]
  rw [e]
  dsimp only
  intro hle
  have : (9 : ℚ) / 10 ≤ 1 / 10 := by exact_mod_cast hle
  norm_num at this

/-- C6 (amended): for every raster with a non-NaN sample and every
auto-range percentage `p` with `50 ≤ p ≤ 100` (which includes the default
99), the auto-derived bounds satisfy `cmin ≤ cmax` and both lie within
`[min(data), max(data)]`, min and max ignoring NaN entries. -/
theorem auto_bounds_ordered (data : List (Option ℚ)) (p : ℚ)
    (hne : data.filterMap id ≠ []) (h50 : 50 ≤ p) (h100 : p ≤ 100) :
    (resolveRange none none data p).1 ≤ (resolveRange none none data p).2 ∧
    ((nanminQ data : ℚ) : ℝ) ≤ (resolveRange none none data p).1 ∧
    (resolveRange none none data p).1 ≤ ((nanmaxQ data : ℚ) : ℝ) ∧
    ((nanminQ data : ℚ) : ℝ) ≤ (resolveRange none none data p).2 ∧
    (resolveRange none none data p).2 ≤ ((nanmaxQ data : ℚ) : ℝ) ∧
    (∀ x ∈ data.filterMap id, nanminQ data ≤ x ∧ x ≤ nanmaxQ data) := by
  have e : resolveRange none none data p
      = (((nanpercentile data (100 - p) : ℚ) : ℝ),
          ((nanpercentile data p : ℚ) : ℝ)) := rfl
  have hq0 : (0 : ℚ) ≤ 100 - p := by linarith
  have hq1 : (100 - p : ℚ) ≤ p := by linarith
  have hmono := nanpercentile_mono hne hq0 hq1 h100
  have hlo := nanminQ_le_nanpercentile hne hq0 (by linarith : (100 - p : ℚ) ≤ 100)
  have hhi := nanpercentile_le_nanmaxQ hne (by linarith : (0 : ℚ) ≤ p) h100
  have hlo2 := nanminQ_le_nanpercentile hne (by linarith : (0 : ℚ) ≤ p) h100
  have hhi2 := nanpercentile_le_nanmaxQ hne hq0 (by linarith : (100 - p : ℚ) ≤ 100)
  rw [e]
  dsimp only
  refine ⟨?_, ?_, ?_, ?_, ?_, fun x hx => nanminQ_le_le_nanmaxQ hx⟩
  · exact_mod_cast hmono
  · exact_mod_cast hlo
  · exact_mod_cast hhi2
  · exact_mod_cast hlo2
  · exact_mod_cast hhi

theorem auto_bounds_ordered_witness :
    ([some (0 : ℚ), some 1, some 2].filterMap id ≠ []) ∧
    ((50 : ℚ) ≤ 99) ∧ ((99 : ℚ) ≤ 100) ∧
    ((resolveRange none none [some 0, some 1, some 2] 99).1
        ≤ (resolveRange none none [some 0, some 1, some 2] 99).2 ∧
      ((nanminQ [some 0, some 1, some 2] : ℚ) : ℝ)
        ≤ (resolveRange none none [some 0, some 1, some 2] 99).1 ∧
      (resolveRange none none [some 0, some 1, some 2] 99).1
        ≤ ((nanmaxQ [some 0, some 1, some 2] : ℚ) : ℝ) ∧
      ((nanminQ [some 0, some 1, some 2] : ℚ) : ℝ)
        ≤ (resolveRange none none [some 0, some 1, some 2] 99).2 ∧
      (resolveRange none none [some 0, some 1, some 2] 99).2
        ≤ ((nanmaxQ [some 0, some 1, some 2] : ℚ) : ℝ) ∧
      (∀ x ∈ [some (0 : ℚ), some 1, some 2].filterMap id,
        nanminQ [some 0, some 1, some 2] ≤ x ∧ x ≤ nanmaxQ [some 0, some 1, some 2])) :=
  ⟨by decide, by norm_num, by norm_num,
    auto_bounds_ordered [some 0, some 1, some 2] 99 (by decide) (by norm_num) (by norm_num)⟩

/-- C7: an all-zero raster with default auto-range 99 and no explicit bounds
resolves to the color range `(0, 0)`. -/
theorem all_zero_range (cmap : String) (hc : cmap ≠ "insar") (n : ℕ) (hn : 0 < n) :
    displayBounds cmap none none (List.replicate n (some 0)) 99 = (0, 0) := by
  unfold displayBounds
  rw [if_neg hc]
  unfold resolveRange
  rw [nanpercentile_replicate_zero n hn, nanpercentile_replicate_zero n hn]
  norm_num

theorem all_zero_range_witness :
    ("SCM5.roma_r" : String) ≠ "insar" ∧ 0 < 3 ∧
    displayBounds "SCM5.roma_r" none none (List.replicate 3 (some 0)) 99 = (0, 0) :=
  ⟨by decide, by decide, all_zero_range "SCM5.roma_r" (by decide) 3 (by decide)⟩

/-- C8: when the `-i` argument names a file that does not exist, the run
fails with exit code 2 and the message `No <path> exists!`, and neither
displays nor exports an image. -/
theorem missing_input_fails (fe : String → Bool) (infile parfile : String)
    (lines : List String) (png : String) (hne : infile ≠ "") (hmiss : fe infile = false) :
    runScript fe infile parfile lines png
        = RunOutcome.failed 2 ("No " ++ infile ++ " exists!") ∧
    (∀ pth msg, runScript fe infile parfile lines png ≠ RunOutcome.exported pth msg) ∧
    runScript fe infile parfile lines png ≠ RunOutcome.displayed := by
  have e : runScript fe infile parfile lines png
      = RunOutcome.failed 2 ("No " ++ infile ++ " exists!") := by
    unfold runScript
    rw [if_neg hne, hmiss]
    simp
  refine ⟨e, fun pth msg => ?_, ?_⟩
  · rw [e]
    simp
  · rw [e]
    simp

theorem missing_input_fails_witness :
    ("missing.bin" : String) ≠ "" ∧
    (fun _ : String => false) "missing.bin" = false ∧
    (runScript (fun _ => false) "missing.bin" "valid.par" [] ""
        = RunOutcome.failed 2 ("No " ++ "missing.bin" ++ " exists!") ∧
      (∀ pth msg, runScript (fun _ => false) "missing.bin" "valid.par" [] ""
          ≠ RunOutcome.exported pth msg) ∧
      runScript (fun _ => false) "missing.bin" "valid.par" [] ""
          ≠ RunOutcome.displayed) :=
  ⟨by decide, rfl, missing_input_fails _ _ _ _ _ (by decide) rfl⟩

/-- C9: for every sample `v` and positive cycle `c` the value produced by
the transform lies in `(-π, π]`: multiplying the unit complex number
`exp(i·v/c)` by the positive real `c` leaves its angle unchanged, so no
rescaling by `c` occurs. -/
theorem wrap_value_range (v : ℝ) {c : ℝ} (hc : 0 < c) :
    wrapDatum v c ∈ Set.Ioc (-Real.pi) Real.pi ∧
    wrapDatum v c = Complex.arg (Complex.exp (Complex.I * ((v : ℂ) / (c : ℂ)))) := by
  refine ⟨?_, wrapDatum_eq_arg v hc⟩
  unfold wrapDatum
  exact Complex.arg_mem_Ioc _

theorem wrap_value_range_witness :
    (0 : ℝ) < 3 ∧
    (wrapDatum 1 3 ∈ Set.Ioc (-Real.pi) Real.pi ∧
      wrapDatum 1 3
        = Complex.arg (Complex.exp (Complex.I * (((1 : ℝ) : ℂ) / ((3 : ℝ) : ℂ))))) :=
  ⟨by norm_num, wrap_value_range 1 (by norm_num)⟩

/-- C10: `--png` is declared in the getopt table as `png=`, consuming a
mandatory argument; on an otherwise successful run an empty argument falls
through to interactive display, and a non-empty argument exports to that
path with a confirmation message — export happens exactly for non-empty
paths. -/
theorem png_export_iff (fe : String → Bool) (infile parfile : String)
    (lines : List String) (wl : Int × Int) (h1 : infile ≠ "") (h2 : fe infile = true)
    (h3 : parfile ≠ "") (h4 : fe parfile = true) (h5 : getWidthLength lines = some wl) :
    "png=" ∈ longOpts ∧
    runScript fe infile parfile lines "" = RunOutcome.displayed ∧
    (∀ png : String, png ≠ "" →
      runScript fe infile parfile lines png
        = RunOutcome.exported png ("\nOutput: " ++ png ++ "\n")) := by
  have base : ∀ png : String, runScript fe infile parfile lines png
      = if png = "" then RunOutcome.displayed
        else RunOutcome.exported png ("\nOutput: " ++ png ++ "\n") := by
    intro png
    unfold runScript
    rw [if_neg h1, h2, if_neg h3, h4, h5]
    simp
  refine ⟨by decide, ?_, ?_⟩
  · rw [base ""]
    simp
  · intro png hpng
    rw [base png, if_neg hpng]

theorem png_export_iff_witness :
    ("a.bin" : String) ≠ "" ∧ (fun _ : String => true) "a.bin" = true ∧
    ("b.par" : String) ≠ "" ∧ (fun _ : String => true) "b.par" = true ∧
    getWidthLength ["width 4", "nlines 5"] = some ((4 : Int), (5 : Int)) ∧
    ("png=" ∈ longOpts ∧
      runScript (fun _ => true) "a.bin" "b.par" ["width 4", "nlines 5"] ""
        = RunOutcome.displayed ∧
      (∀ png : String, png ≠ "" →
        runScript (fun _ => true) "a.bin" "b.par" ["width 4", "nlines 5"] png
          = RunOutcome.exported png ("\nOutput: " ++ png ++ "\n"))) :=
  ⟨by decide, rfl, by decide, rfl, by decide,
    png_export_iff _ _ _ _ (4, 5) (by decide) rfl (by decide) rfl (by decide)⟩

